import Mathlib

/-!
Verification development for the Wikicorpus corpus reader
(`nltk/corpus/reader/wikicorpus.py`): a shallow embedding of the
streaming document-block parser (`WikicorpusCorpusView.read_block`),
the per-line cleaner (`read_clean_line`), and the three token
line patterns, together with theorems settling the specification's
claims about them.

Modelling conventions:
- A file stream is a `List String` of raw lines, as returned by the
  underlying `stream.readline()`: reading pops the head; an empty list
  (or the sentinel raw line `""`, which Python's `readline` produces
  exactly at end of file) means end of stream.
- Python tuple components are `PyVal` (a string, an integer, or `None`),
  since the source mixes all three in token tuples.
- `re.match` with the source's patterns is prefix matching; because every
  `\S+`/`\s+`/`\d+` group in those patterns is followed by a character
  class disjoint from it (or by nothing), the greedy match is
  deterministic and is embedded directly as maximal-run scanning.
- `\s` is embedded as Python's Unicode whitespace set and `\d` as the
  decimal digits `0`-`9` (the corpus and all claims use ASCII digits).
- The outer sentence loop of `read_block` does not terminate on every
  input (see the theorem for claim C1), so it takes explicit fuel;
  running out of fuel is the `diverge` result. The inner loop and all
  other code is structurally terminating and takes no fuel.
-/

namespace Wikicorpus

/-! ## Python value and token model -/

/-- A Python value as used in the token tuples of the source: a text
string, an integer, or `None`. -/
inductive PyVal where
  | str (s : String)
  | int (n : Int)
  | none
deriving DecidableEq, Repr

/-- One token tuple `(word, lemma, tag, sense)` as appended by
`read_block` (`lem` is the lemma component; `lemma` is a Lean keyword). -/
structure Tok where
  word : PyVal
  lem : PyVal
  tag : PyVal
  sense : PyVal
deriving DecidableEq, Repr

/-- The `Document` record: `id`, `title`, `db_index` captured from the
start marker, and the list of sentences accumulated in `doc.sents`. -/
structure Doc where
  id : String
  title : String
  db_index : String
  sents : List (List Tok)
deriving DecidableEq, Repr

/-! ## Source string constants (verbatim from the source) -/

def FAILING_LINE_WORD : String := "30_de_gener_de_1994"
def FAILING_LINE_EXTRA_WORD : String := "despr√©s"
def FAILING_LINE_LEMMA : String := "[??:30/1/-99999:??.??:??]"
def FAILING_LINE_TAG : String := "W"
def FAILING_LINE_SENSE : String := "0"

/-- `FAILING_LINE`, assembled exactly as the source's `str.format` call. -/
def FAILING_LINE : String :=
  FAILING_LINE_WORD ++ " " ++ FAILING_LINE_EXTRA_WORD ++ " " ++
    FAILING_LINE_LEMMA ++ " " ++ FAILING_LINE_TAG ++ " " ++ FAILING_LINE_SENSE

def FAILING_LINE_2 : String := "20 000_tones WG_tm:20 Zu 0"

def FAILING_LINE_3 : String := "f"

def LINE_END_OF_ARTICLE : String := "ENDOFARTICLE endofarticle NP00000 0"

def LINE_DOC_TAG_CLOSE : String := "</doc>"

/-! ## Line cleaning (`read_clean_line`) -/

/-- Python's Unicode whitespace predicate (the set stripped by
`str.strip()` and matched by `\s` under `re.UNICODE`). -/
def isPySpace (c : Char) : Bool :=
  c.val == 32 || (9 ≤ c.val && c.val ≤ 13) || (28 ≤ c.val && c.val ≤ 31) ||
  c.val == 0x85 || c.val == 0xa0 || c.val == 0x1680 ||
  (0x2000 ≤ c.val && c.val ≤ 0x200a) ||
  c.val == 0x2028 || c.val == 0x2029 || c.val == 0x202f ||
  c.val == 0x205f || c.val == 0x3000

/-- `\d` of the source patterns (decimal digits). -/
def isPyDigit (c : Char) : Bool := c.isDigit

/-- Python's `line.strip()`: remove leading and trailing whitespace. -/
def pyStrip (s : String) : String :=
  String.mk (((s.data.dropWhile isPySpace).reverse.dropWhile isPySpace).reverse)

/-- The character substitution of `line.replace(chr(160), " ")`. -/
def substNbsp (c : Char) : Char := if c.val == 0xa0 then ' ' else c

/-- The full per-line normalization of `read_clean_line`:
`line.strip().replace(chr(160), " ")`. -/
def cleanStr (s : String) : String :=
  String.mk ((pyStrip s).data.map substNbsp)

/-- One read step on a raw line: Python's `readline` result `""` signals
end of file (`read_clean_line` returns `None`); any other raw line is
normalized. -/
def cleanLineOpt (x : String) : Option String :=
  if x = "" then none else some (cleanStr x)

/-- `read_clean_line(stream)`: pop one raw line and normalize it;
`none` is the end-of-stream signal. -/
def readCleanLine (s : List String) : Option String × List String :=
  match s with
  | [] => (none, [])
  | x :: r => (cleanLineOpt x, r)

/-! ## The token patterns (`PATTERN_WORD`, `_DOUBLE`, `_TRIPLE`)

`re.match` anchors only at the start.  In `(\S+)\s+(\S+)\s+(\S+)\s+(\d+)`
each `\S+` is followed by `\s+` (so it must be a maximal nonspace run),
each `\s+` is followed by `\S`/`\d` (so it must be a maximal whitespace
run), and the final `(\d+)` is followed by nothing (so it is the maximal
digit prefix of the fourth run, and the rest of the line is ignored).
The same holds for the 6-run and 8-run variants. -/

/-- Take a nonempty maximal run of non-whitespace (`\S+`). -/
def takeRun (cs : List Char) : Option (List Char × List Char) :=
  match cs.span (fun c => !isPySpace c) with
  | (a, b) => if a.isEmpty then none else some (a, b)

/-- Take a nonempty maximal run of whitespace (`\s+`), keeping the
matched characters (they are part of the captured group in the
`_DOUBLE`/`_TRIPLE` patterns). -/
def takeWs (cs : List Char) : Option (List Char × List Char) :=
  match cs.span isPySpace with
  | (a, b) => if a.isEmpty then none else some (a, b)

/-- Take a nonempty maximal run of digits (`\d+`). -/
def takeDigits (cs : List Char) : Option (List Char × List Char) :=
  match cs.span isPyDigit with
  | (a, b) => if a.isEmpty then none else some (a, b)

/-- Scan `k` repetitions of `\S+\s+` (a maximal nonspace run followed by
a maximal whitespace run, both nonempty), returning the `(run, ws)`
pairs and the remainder.  All three word patterns are `k` such
repetitions followed by `(\d+)`. -/
def takeRuns : Nat → List Char → Option (List (List Char × List Char) × List Char)
  | 0, cs => some ([], cs)
  | k + 1, cs =>
    match takeRun cs with
    | Option.none => none
    | some (r, cs1) =>
      match takeWs cs1 with
      | Option.none => none
      | some (w, cs2) =>
        match takeRuns k cs2 with
        | Option.none => none
        | some (ps, rest) => some ((r, w) :: ps, rest)

/-- `PATTERN_WORD.match(line)`: `(\S+)\s+(\S+)\s+(\S+)\s+(\d+)` as a
prefix of the line; returns the four captured groups. -/
def matchWord (l : String) : Option (String × String × String × String) :=
  match takeRuns 3 l.data with
  | some ([(r1, _), (r2, _), (r3, _)], cs) =>
    match takeDigits cs with
    | some (d, _) => some (String.mk r1, String.mk r2, String.mk r3, String.mk d)
    | Option.none => none
  | _ => none

/-- `PATTERN_WORD_DOUBLE.match(line)`:
`(\S+\s+\S+)\s+(\S+\s+\S+)\s+(\S+)\s+(\d+)` as a prefix; the first two
groups capture their internal whitespace verbatim. -/
def matchWordDouble (l : String) : Option (String × String × String × String) :=
  match takeRuns 5 l.data with
  | some ([(r1, w1), (r2, _), (r3, w3), (r4, _), (r5, _)], cs) =>
    match takeDigits cs with
    | some (d, _) =>
      some (String.mk (r1 ++ w1 ++ r2), String.mk (r3 ++ w3 ++ r4),
            String.mk r5, String.mk d)
    | Option.none => none
  | _ => none

/-- `PATTERN_WORD_TRIPLE.match(line)`:
`(\S+\s+\S+\s+\S+)\s+(\S+\s+\S+\s+\S+)\s+(\S+)\s+(\d+)` as a prefix. -/
def matchWordTriple (l : String) : Option (String × String × String × String) :=
  match takeRuns 7 l.data with
  | some ([(r1, w1), (r2, w2), (r3, _), (r4, w4), (r5, w5), (r6, _), (r7, _)], cs) =>
    match takeDigits cs with
    | some (d, _) =>
      some (String.mk (r1 ++ w1 ++ r2 ++ w2 ++ r3),
            String.mk (r4 ++ w4 ++ r5 ++ w5 ++ r6),
            String.mk r7, String.mk d)
    | Option.none => none
  | _ => none

/-! ## The document start pattern (`PATTERN_DOC_START`)

`<doc id="(\d+)" title="(.*)" nonfiltered="\d+" processed="\d+"
dbindex="(\d+)">` under `re.match`: each `\d+` is followed by `"` so it
is a maximal digit run; `(.*)` is greedy over non-newline characters, so
the title is the longest newline-free prefix whose remainder matches the
tail of the pattern (anything may follow the final `>`). -/

/-- Expect a literal character sequence; return the remainder. -/
def expectLit : List Char → List Char → Option (List Char)
  | [], cs => some cs
  | _ :: _, [] => none
  | p :: ps, c :: cs => if c = p then expectLit ps cs else none

/-- The tail of `PATTERN_DOC_START` after the title group; returns the
captured `dbindex` digits. -/
def docTail (cs : List Char) : Option (List Char) := do
  let cs ← expectLit "\" nonfiltered=\"".data cs
  let (_, cs) ← takeDigits cs
  let cs ← expectLit "\" processed=\"".data cs
  let (_, cs) ← takeDigits cs
  let cs ← expectLit "\" dbindex=\"".data cs
  let (d, cs) ← takeDigits cs
  let _ ← expectLit "\">".data cs
  pure d

/-- One candidate split for the greedy `(.*)` title group: the first `k`
characters are the title (which `.` forbids to contain a newline) and
the remainder must match the tail of the pattern. -/
def titleAt (cs : List Char) (k : Nat) : Option (String × String) :=
  if (cs.take k).all (fun c => c ≠ '\n') then
    match docTail (cs.drop k) with
    | some d => some (String.mk (cs.take k), String.mk d)
    | Option.none => none
  else none

/-- Greedy `(.*)`: try the longest title first. -/
def greedyTitle (cs : List Char) : Nat → Option (String × String)
  | 0 => titleAt cs 0
  | k + 1 => (titleAt cs (k + 1)).orElse fun _ => greedyTitle cs k

/-- `PATTERN_DOC_START.match(line)`; returns `match.groups()`, i.e.
`(id, title, dbindex)`. -/
def matchDocStart (l : String) : Option (String × String × String) := do
  let cs ← expectLit "<doc id=\"".data l.data
  let (i, cs) ← takeDigits cs
  let cs ← expectLit "\" title=\"".data cs
  let (t, d) ← greedyTitle cs cs.length
  pure (String.mk i, t, d)

/-! ## The per-line word parser (lines 139-180 of the source)

The classification of one non-blank, non-marker line: the `Fz 0`
literal check, then the three patterns in order, then the literal
corruption table checks (`FAILING_LINE*`), exactly in source order.
`unparsable` is the case in which the source consults the next line
and either breaks (end of stream) or raises `ValueError`. -/

inductive WordOutcome where
  | toks (ts : List Tok)
  | skip
  | unparsable
deriving DecidableEq, Repr

/-- Classify a line as the body of the inner loop does.  Note the source
sets `sense = 0` (the integer) for the `Fz 0` literal, but strings
everywhere else. -/
def wordLine (l : String) : WordOutcome :=
  if l = "Fz 0" then
    .toks [⟨.str "", .str "", .str "Fz", .int 0⟩]
  else
    let m := (matchWord l).orElse fun _ =>
      (matchWordDouble l).orElse fun _ => matchWordTriple l
    if l = FAILING_LINE then
      .toks [⟨.str FAILING_LINE_WORD, .str FAILING_LINE_LEMMA,
              .str FAILING_LINE_TAG, .str FAILING_LINE_SENSE⟩,
             ⟨.str FAILING_LINE_EXTRA_WORD, .none, .none, .none⟩]
    else if l = FAILING_LINE_2 then
      .toks [⟨.str "20000_tones", .str "WG_tm:20000", .str "Zu", .str "0"⟩]
    else if l = FAILING_LINE_3 then
      .skip
    else
      match m with
      | some (w, le, t, s) => .toks [⟨.str w, .str le, .str t, .str s⟩]
      | Option.none => .unparsable

/-- The single token a line contributes, when it contributes exactly one
(used to state the well-formed-block claims). -/
def tokOf (l : String) : Option Tok :=
  match wordLine l with
  | .toks [t] => some t
  | _ => none

/-! ## The block parser (`read_block`) -/

/-- The errors `read_block` can raise: the two `ValueError`s, the three
`assert`s, and the `TypeError` from `PATTERN_DOC_START.match(None)`
when the stream is already exhausted at entry. -/
inductive PErr where
  | openTag
  | unparsableLine (l : String)
  | assertCloseTag
  | assertFp
  | assertBlank
  | noneMatch
deriving DecidableEq, Repr

/-- Result of the inner sentence loop: the value of `line` when the
loop was left, the remaining stream, and the sentence built so far. -/
inductive InnerRes where
  | ok (line : Option String) (stream : List String) (sent : List Tok)
  | err (e : PErr)
deriving DecidableEq, Repr

/-- The inner loop (`while line is not None and line != '' and ...`,
source lines 138-182): build one sentence.  Exits: loop condition false
(`line` is `none`, blank, or a marker); `break` on the skip literal
(`line` stays `"f"`); `break` on an unparsable line at end of stream
(`line` stays that line, the speculative read is consumed); or
`ValueError` on an unparsable line followed by a further line. -/
def innerLoop : Option String → List String → List Tok → InnerRes
  | Option.none, s, sent => .ok Option.none s sent
  | some l, s, sent =>
    if l = "" ∨ l = LINE_END_OF_ARTICLE ∨ l = LINE_DOC_TAG_CLOSE then
      .ok (some l) s sent
    else
      match wordLine l with
      | .skip => .ok (some l) s sent
      | .unparsable =>
        match readCleanLine s with
        | (Option.none, s2) => .ok (some l) s2 sent
        | (some _, _) => .err (.unparsableLine l)
      | .toks ts =>
        let sent2 := sent ++ ts
        match s with
        | [] => .ok Option.none [] sent2
        | x :: r => innerLoop (cleanLineOpt x) r sent2

/-- Result of the outer sentence-block loop: the value of `line` when it
was left, the remaining stream, and the accumulated `doc.sents`;
`diverge` means the loop runs forever (fuel exhausted on a
non-terminating path). -/
inductive OuterRes where
  | ok (line : Option String) (stream : List String) (sents : List (List Tok))
  | err (e : PErr)
  | diverge
deriving DecidableEq, Repr

/-- The outer loop (`while line is not None and line != EOA and
line != CLOSE`, source lines 135-192): run the inner loop with a fresh
sentence, then `break` if `line == 'f'` (discarding the sentence),
otherwise append the sentence, then re-read on a blank line, `break` on
end of stream, or continue with the current `line` value.  Checking the
loop condition costs no fuel; each iteration costs one. -/
def outerLoop : Nat → Option String → List String → List (List Tok) → OuterRes
  | _, Option.none, s, sents => .ok Option.none s sents
  | fuel, some l, s, sents =>
    if l = LINE_END_OF_ARTICLE ∨ l = LINE_DOC_TAG_CLOSE then
      .ok (some l) s sents
    else
      match fuel with
      | 0 => .diverge
      | fuel + 1 =>
        match innerLoop (some l) s [] with
        | .err e => .err e
        | .ok line2 s2 sent =>
          if line2 = some FAILING_LINE_3 then .ok line2 s2 sents
          else
            let sents2 := sents ++ [sent]
            if line2 = some "" then
              match readCleanLine s2 with
              | (l3, s3) => outerLoop fuel l3 s3 sents2
            else
              match line2 with
              | Option.none => .ok Option.none s2 sents2
              | some l3 => outerLoop fuel (some l3) s2 sents2

/-- Read one line and enter the inner loop (the `line =
read_clean_line(stream)` at the bottom of the inner loop body). -/
def innerEntry (s : List String) (sent : List Tok) : InnerRes :=
  match readCleanLine s with
  | (l, s2) => innerLoop l s2 sent

/-- Read one line and enter the outer loop (source line 134). -/
def outerEntry (fuel : Nat) (s : List String) (sents : List (List Tok)) : OuterRes :=
  match readCleanLine s with
  | (l, s2) => outerLoop fuel l s2 sents

/-- Result of one `read_block` invocation: the returned document list
(`[]` or `[doc]`) with the remaining stream, an error, or divergence. -/
inductive BlockRes where
  | docs (ds : List Doc) (rest : List String)
  | err (e : PErr)
  | diverge
deriving DecidableEq, Repr

/-- The footer checks after the end-of-article marker (source lines
194-202): `'. . Fp 0'`, a blank line, then the closing tag, each read
compared by value (reading `None` at end of stream fails the compare
exactly as in Python). -/
def footerCheck (i t d : String) (sents : List (List Tok)) (s : List String) : BlockRes :=
  match readCleanLine s with
  | (f1, s1) =>
    if f1 = some ". . Fp 0" then
      match readCleanLine s1 with
      | (f2, s2) =>
        if f2 = some "" then
          match readCleanLine s2 with
          | (f3, s3) =>
            if f3 = some LINE_DOC_TAG_CLOSE then .docs [⟨i, t, d, sents⟩] s3
            else .err .assertCloseTag
        else .err .assertBlank
    else .err .assertFp

/-- One invocation of `WikicorpusCorpusView.read_block` (source lines
116-204), with `fuel` bounding the outer loop's iterations. -/
def readBlockF (fuel : Nat) (stream : List String) : BlockRes :=
  match readCleanLine stream with
  | (l1, s1) =>
    match l1 with
    | Option.none => .err .noneMatch
    | some l =>
      match matchDocStart l with
      | Option.none =>
        if l = "" then
          match readCleanLine s1 with
          | (l2, s2) =>
            if l2 = some LINE_DOC_TAG_CLOSE then .docs [] s2
            else .err .assertCloseTag
        else .err .openTag
      | some (i, t, d) =>
        match outerEntry fuel s1 [] with
        | .err e => .err e
        | .diverge => .diverge
        | .ok line2 s2 sents =>
          if line2 = some LINE_END_OF_ARTICLE then footerCheck i t d sents s2
          else .docs [⟨i, t, d, sents⟩] s2

/-! ## Well-formedness predicates for block-level claims -/

/-- A line that behaves as one ordinary token line inside a sentence:
non-blank, already in normalized form, not a marker, and classified as
exactly one token. -/
def goodTok (l : String) : Prop :=
  l ≠ "" ∧ cleanStr l = l ∧ l ≠ LINE_END_OF_ARTICLE ∧
    l ≠ LINE_DOC_TAG_CLOSE ∧ (tokOf l).isSome

instance : DecidablePred goodTok := fun l => by
  unfold goodTok; infer_instance

/-- Each sentence block followed by its blank separator line. -/
def sepJoin (blocks : List (List String)) : List String :=
  (blocks.map (fun b => b ++ ["\n"])).flatten

/-- The start-marker line of the specification's end-to-end example. -/
def exMarker : String :=
  "<doc id=\"1\" title=\"X\" nonfiltered=\"0\" processed=\"1\" dbindex=\"5\">"

/-- Remove the trailing run of Python whitespace (recursive
formulation, used by the claim-side normalizer `specNormalizeLine`). -/
def stripTrailing : List Char → List Char
  | [] => []
  | c :: cs =>
    match stripTrailing cs with
    | [] => if isPySpace c then [] else [c]
    | cs2 => c :: cs2

/-- Claim-side line normalizer, following the amended wording of the
line-normalization claim: remove all leading whitespace, remove all
trailing whitespace, then replace each remaining non-breaking space by
an ordinary space. -/
def specNormalizeLine (raw : String) : String :=
  String.mk ((stripTrailing (raw.data.dropWhile isPySpace)).map substNbsp)

/-! ## Helper lemmas -/

lemma cleanLineOpt_self (l : String) (h1 : l ≠ "") (h2 : cleanStr l = l) :
    cleanLineOpt l = some l := by
  simp [cleanLineOpt, h1, h2]

lemma goodTok_spec {l : String} (h : goodTok l) :
    l ≠ "" ∧ cleanStr l = l ∧ l ≠ LINE_END_OF_ARTICLE ∧ l ≠ LINE_DOC_TAG_CLOSE ∧
      ∃ t, wordLine l = .toks [t] ∧ tokOf l = some t := by
  obtain ⟨h1, h2, h3, h4, h5⟩ := h
  refine ⟨h1, h2, h3, h4, ?_⟩
  unfold tokOf at h5
  cases hw : wordLine l with
  | toks ts =>
    match ts, hw with
    | [], hw => rw [hw] at h5; simp at h5
    | [t], hw => exact ⟨t, rfl, by unfold tokOf; rw [hw]⟩
    | t1 :: t2 :: ts', hw => rw [hw] at h5; simp at h5
  | skip => rw [hw] at h5; simp at h5
  | unparsable => rw [hw] at h5; simp at h5

/-- Processing one ordinary token line inside the sentence loop: append
its tokens and read the next line. -/
lemma inner_step_tok (l : String) (s : List String) (sent ts : _)
    (h0 : ¬(l = "" ∨ l = LINE_END_OF_ARTICLE ∨ l = LINE_DOC_TAG_CLOSE))
    (hw : wordLine l = .toks ts) :
    innerLoop (some l) s sent = innerEntry s (sent ++ ts) := by
  cases s with
  | nil => simp [innerLoop, h0, hw, innerEntry, readCleanLine]
  | cons x r => simp [innerLoop, h0, hw, innerEntry, readCleanLine]

/-- The inner loop consumes a run of ordinary token lines, appending
their tokens in order. -/
lemma inner_run (b : List String) : ∀ (s : List String) (sent : List Tok),
    (∀ l ∈ b, goodTok l) →
    innerEntry (b ++ s) sent = innerEntry s (sent ++ b.filterMap tokOf) := by
  induction b with
  | nil => intro s sent _; simp
  | cons l b ih =>
    intro s sent hb
    obtain ⟨h1, h2, h3, h4, t, hw, ht⟩ := goodTok_spec (hb l (by simp))
    have hcons : innerEntry ((l :: b) ++ s) sent = innerLoop (some l) (b ++ s) sent := by
      simp [innerEntry, readCleanLine, cleanLineOpt_self l h1 h2]
    rw [hcons, inner_step_tok l _ sent [t] (by tauto) hw,
        ih _ _ (fun x hx => hb x (by simp [hx]))]
    simp [List.filterMap_cons, ht]

/-- A full sentence block followed by its blank separator costs one
outer-loop iteration and appends the block's tokens as one sentence. -/
lemma outer_block_step (l : String) (b' : List String) (rest : List String)
    (sents : List (List Tok)) (fuel : Nat)
    (hb : ∀ x ∈ l :: b', goodTok x) :
    outerEntry (fuel + 1) ((l :: b') ++ ("\n" :: rest)) sents =
      outerEntry fuel rest (sents ++ [(l :: b').filterMap tokOf]) := by
  obtain ⟨h1, h2, h3, h4, t, hw, ht⟩ := goodTok_spec (hb l (by simp))
  have hinner : innerLoop (some l) (b' ++ ("\n" :: rest)) [] =
      .ok (some "") rest ((l :: b').filterMap tokOf) := by
    have h5 : innerEntry ("\n" :: rest) ([] ++ [t] ++ b'.filterMap tokOf) =
        innerLoop (some "") rest ([t] ++ b'.filterMap tokOf) := by
      simp [innerEntry, readCleanLine, (by decide : cleanLineOpt "\n" = some "")]
    rw [inner_step_tok l _ [] [t] (by tauto) hw,
        inner_run b' _ _ (fun x hx => hb x (by simp [hx])), h5]
    simp [innerLoop, List.filterMap_cons, ht]
  have hentry : outerEntry (fuel + 1) ((l :: b') ++ ("\n" :: rest)) sents =
      outerLoop (fuel + 1) (some l) (b' ++ ("\n" :: rest)) sents := by
    simp [outerEntry, readCleanLine, cleanLineOpt_self l h1 h2]
  rw [hentry]
  simp only [outerLoop, h3, h4, or_self, if_false, hinner]
  simp [outerEntry, (by decide : ¬ (some "" = some FAILING_LINE_3))]

/-- The outer loop consumes a list of separator-terminated sentence
blocks, one iteration and one appended sentence per block. -/
lemma outer_run (blocks : List (List String)) :
    ∀ (s : List String) (sents : List (List Tok)) (fuel : Nat),
    (∀ b ∈ blocks, b ≠ [] ∧ ∀ l ∈ b, goodTok l) →
    outerEntry (blocks.length + fuel) (sepJoin blocks ++ s) sents =
      outerEntry fuel s (sents ++ blocks.map (fun b => b.filterMap tokOf)) := by
  induction blocks with
  | nil => intro s sents fuel _; simp [sepJoin]
  | cons b bs ih =>
    intro s sents fuel hb
    obtain ⟨hbne, hbtok⟩ := hb b (by simp)
    cases b with
    | nil => exact absurd rfl hbne
    | cons l b' =>
      have hstream : sepJoin ((l :: b') :: bs) ++ s =
          ((l :: b') ++ ("\n" :: (sepJoin bs ++ s))) := by
        simp [sepJoin]
      have hlen : ((l :: b') :: bs).length + fuel = (bs.length + fuel) + 1 := by
        simp [List.length_cons]; omega
      rw [hstream, hlen, outer_block_step l b' _ sents (bs.length + fuel) hbtok,
          ih _ _ _ (fun x hx => hb x (by simp [hx]))]
      simp

/-- After the document-start marker is matched, `read_block` is the
outer loop followed by the end-of-article test. -/
lemma readBlock_after_marker (fuel : Nat) (m i t d : String) (s1 : List String)
    (hm : matchDocStart m = some (i, t, d)) (hm1 : m ≠ "") (hm2 : cleanStr m = m) :
    readBlockF fuel (m :: s1) =
      (match outerEntry fuel s1 [] with
       | .err e => .err e
       | .diverge => .diverge
       | .ok line2 s2 sents =>
         if line2 = some LINE_END_OF_ARTICLE then footerCheck i t d sents s2
         else .docs [⟨i, t, d, sents⟩] s2) := by
  simp [readBlockF, readCleanLine, cleanLineOpt_self m hm1 hm2, hm]

/-- The outer loop exits at once, spending no fuel, on the
end-of-article or closing marker. -/
lemma outerLoop_marker (fuel : Nat) (l : String) (s : List String)
    (sents : List (List Tok))
    (h : l = LINE_END_OF_ARTICLE ∨ l = LINE_DOC_TAG_CLOSE) :
    outerLoop fuel (some l) s sents = .ok (some l) s sents := by
  cases fuel <;> simp [outerLoop, h]

/-- Parsing a fully well-formed document block: start marker, blocks of
token lines each terminated by a blank separator, the end-of-article
marker, and the exact footer.  One document is returned, with the
blocks' tokens as its sentences, and the rest of the stream is left
unread. -/
lemma readBlock_wellformed (m i t d : String) (blocks : List (List String))
    (rest : List String) (fuel : Nat)
    (hm : matchDocStart m = some (i, t, d)) (hm1 : m ≠ "") (hm2 : cleanStr m = m)
    (hb : ∀ b ∈ blocks, b ≠ [] ∧ ∀ l ∈ b, goodTok l) :
    readBlockF (blocks.length + fuel)
        (m :: (sepJoin blocks ++
          (LINE_END_OF_ARTICLE :: ". . Fp 0" :: "\n" :: LINE_DOC_TAG_CLOSE :: rest))) =
      .docs [⟨i, t, d, blocks.map (fun b => b.filterMap tokOf)⟩] rest := by
  rw [readBlock_after_marker _ m i t d _ hm hm1 hm2,
      outer_run blocks _ [] fuel hb]
  have heoa : outerEntry fuel
      (LINE_END_OF_ARTICLE :: ". . Fp 0" :: "\n" :: LINE_DOC_TAG_CLOSE :: rest)
      ([] ++ blocks.map (fun b => b.filterMap tokOf)) =
      .ok (some LINE_END_OF_ARTICLE) (". . Fp 0" :: "\n" :: LINE_DOC_TAG_CLOSE :: rest)
        (blocks.map (fun b => b.filterMap tokOf)) := by
    simp only [outerEntry, readCleanLine, List.nil_append,
      (by decide : cleanLineOpt LINE_END_OF_ARTICLE = some LINE_END_OF_ARTICLE)]
    exact outerLoop_marker _ _ _ _ (Or.inl rfl)
  rw [heoa]
  simp [footerCheck, readCleanLine,
    (by decide : cleanLineOpt ". . Fp 0" = some ". . Fp 0"),
    (by decide : cleanLineOpt "\n" = some ""),
    (by decide : cleanLineOpt LINE_DOC_TAG_CLOSE = some LINE_DOC_TAG_CLOSE)]

/-- A sentence interrupted by the skip literal `"f"`: the inner loop
breaks with `line = "f"`, and the outer loop then breaks too, discarding
the sentence under construction and leaving the rest of the stream
unread. -/
lemma outer_skip_exit (T : List String) (R : List String)
    (sents : List (List Tok)) (fuel : Nat) (hT : ∀ l ∈ T, goodTok l) :
    outerEntry (fuel + 1) (T ++ (FAILING_LINE_3 :: R)) sents =
      .ok (some FAILING_LINE_3) R sents := by
  have hskip : ∀ sent : List Tok, innerLoop (some FAILING_LINE_3) R sent =
      .ok (some FAILING_LINE_3) R sent := by
    intro sent
    simp [innerLoop, (by decide : wordLine FAILING_LINE_3 = .skip),
      (by decide : FAILING_LINE_3 ≠ ""),
      (by decide : FAILING_LINE_3 ≠ LINE_END_OF_ARTICLE),
      (by decide : FAILING_LINE_3 ≠ LINE_DOC_TAG_CLOSE)]
  cases T with
  | nil =>
    have hentry : outerEntry (fuel + 1) ([] ++ (FAILING_LINE_3 :: R)) sents =
        outerLoop (fuel + 1) (some FAILING_LINE_3) R sents := by
      simp [outerEntry, readCleanLine,
        (by decide : cleanLineOpt FAILING_LINE_3 = some FAILING_LINE_3)]
    rw [hentry]
    simp only [outerLoop,
      (by decide : ¬(FAILING_LINE_3 = LINE_END_OF_ARTICLE ∨
                     FAILING_LINE_3 = LINE_DOC_TAG_CLOSE)), if_false, hskip]
    simp
  | cons l T' =>
    obtain ⟨h1, h2, h3, h4, t, hw, ht⟩ := goodTok_spec (hT l (by simp))
    have hinner : innerLoop (some l) (T' ++ (FAILING_LINE_3 :: R)) [] =
        .ok (some FAILING_LINE_3) R ((l :: T').filterMap tokOf) := by
      rw [inner_step_tok l _ [] [t] (by tauto) hw,
          inner_run T' _ _ (fun x hx => hT x (by simp [hx]))]
      simp [innerEntry, readCleanLine,
        (by decide : cleanLineOpt FAILING_LINE_3 = some FAILING_LINE_3),
        hskip, List.filterMap_cons, ht]
    have hentry : outerEntry (fuel + 1) ((l :: T') ++ (FAILING_LINE_3 :: R)) sents =
        outerLoop (fuel + 1) (some l) (T' ++ (FAILING_LINE_3 :: R)) sents := by
      simp [outerEntry, readCleanLine, cleanLineOpt_self l h1 h2]
    rw [hentry]
    simp only [outerLoop, h3, h4, or_self, if_false, hinner]
    simp

/-- A sentence cut off by end of stream: the inner loop exits with
`line = None`, and the outer loop appends the sentence built so far and
breaks. -/
lemma outer_none_exit (l : String) (T' : List String)
    (sents : List (List Tok)) (fuel : Nat) (hT : ∀ x ∈ l :: T', goodTok x) :
    outerEntry (fuel + 1) (l :: T') sents =
      .ok Option.none [] (sents ++ [(l :: T').filterMap tokOf]) := by
  obtain ⟨h1, h2, h3, h4, t, hw, ht⟩ := goodTok_spec (hT l (by simp))
  have hinner : innerLoop (some l) T' [] =
      .ok Option.none [] ((l :: T').filterMap tokOf) := by
    have h0 : innerLoop (some l) T' [] = innerEntry ((l :: T') ++ []) [] := by
      simp [innerEntry, readCleanLine, cleanLineOpt_self l h1 h2]
    rw [h0, inner_run (l :: T') _ _ hT]
    simp [innerEntry, readCleanLine, innerLoop]
  have hentry : outerEntry (fuel + 1) (l :: T') sents =
      outerLoop (fuel + 1) (some l) T' sents := by
    simp [outerEntry, readCleanLine, cleanLineOpt_self l h1 h2]
  rw [hentry]
  simp only [outerLoop, h3, h4, or_self, if_false, hinner]
  simp

lemma dropWhile_all_space {cs : List Char} (h : cs.dropWhile isPySpace = [])
    (c : Char) :
    (cs ++ [c]).dropWhile isPySpace = if isPySpace c then [] else [c] := by
  induction cs with
  | nil => simp [List.dropWhile]; split <;> simp_all
  | cons d ds ih =>
    by_cases hd : isPySpace d
    · rw [List.dropWhile_cons_of_pos hd] at h
      simp only [List.cons_append, List.dropWhile_cons_of_pos hd]
      exact ih h
    · rw [List.dropWhile_cons_of_neg hd] at h
      exact absurd h (by simp)

lemma dropWhile_append_last {cs : List Char} (h : cs.dropWhile isPySpace ≠ [])
    (c : Char) :
    (cs ++ [c]).dropWhile isPySpace = cs.dropWhile isPySpace ++ [c] := by
  induction cs with
  | nil => exact absurd rfl h
  | cons d ds ih =>
    by_cases hd : isPySpace d
    · rw [List.dropWhile_cons_of_pos hd] at h
      simp only [List.cons_append, List.dropWhile_cons_of_pos hd]
      exact ih h
    · simp only [List.cons_append, List.dropWhile_cons_of_neg hd]

/-- The recursive trailing-strip agrees with stripping the reversed
list from the front. -/
lemma stripTrailing_eq (cs : List Char) :
    stripTrailing cs = (cs.reverse.dropWhile isPySpace).reverse := by
  induction cs with
  | nil => rfl
  | cons c cs ih =>
    cases h : stripTrailing cs with
    | nil =>
      rw [h] at ih
      have h2 : cs.reverse.dropWhile isPySpace = [] := by
        have := congrArg List.reverse ih
        simpa using this.symm
      simp only [stripTrailing, h, List.reverse_cons,
        dropWhile_all_space h2 c]
      split <;> simp
    | cons d ds =>
      rw [h] at ih
      have h2 : cs.reverse.dropWhile isPySpace ≠ [] := by
        intro h3
        rw [h3] at ih
        simp at ih
      simp only [stripTrailing, h, List.reverse_cons,
        dropWhile_append_last h2 c]
      simp [← ih]

/-- The source normalization agrees with the claim-side normalizer. -/
lemma cleanStr_eq_spec (raw : String) : cleanStr raw = specNormalizeLine raw := by
  simp [cleanStr, specNormalizeLine, pyStrip, stripTrailing_eq]

/-- An unparsable line followed by a further line, reached after any
run of ordinary token lines of the current sentence: the speculative
read sees a real line, so the inner loop raises, and the error
propagates out of the outer loop. -/
lemma outer_unparsable_err (T : List String) (l x : String) (r : List String)
    (sents : List (List Tok)) (fuel : Nat)
    (hT : ∀ y ∈ T, goodTok y)
    (h1 : l ≠ "") (h2 : cleanStr l = l)
    (h3 : l ≠ LINE_END_OF_ARTICLE) (h4 : l ≠ LINE_DOC_TAG_CLOSE)
    (hw : wordLine l = .unparsable) (hx : x ≠ "") :
    outerEntry (fuel + 1) (T ++ (l :: x :: r)) sents = .err (.unparsableLine l) := by
  have hinner : ∀ sent, innerLoop (some l) (x :: r) sent = .err (.unparsableLine l) := by
    intro sent
    simp [innerLoop, h1, h3, h4, hw, readCleanLine, cleanLineOpt, hx]
  cases T with
  | nil =>
    have hentry : outerEntry (fuel + 1) ([] ++ (l :: x :: r)) sents =
        outerLoop (fuel + 1) (some l) (x :: r) sents := by
      simp [outerEntry, readCleanLine, cleanLineOpt_self l h1 h2]
    rw [hentry]
    simp only [outerLoop, h3, h4, or_self, if_false, hinner]
  | cons y T2 =>
    obtain ⟨g1, g2, g3, g4, t, hwt, ht⟩ := goodTok_spec (hT y (by simp))
    have hinner2 : innerLoop (some y) (T2 ++ (l :: x :: r)) [] =
        .err (.unparsableLine l) := by
      rw [inner_step_tok y _ [] [t] (by tauto) hwt,
          inner_run T2 _ _ (fun z hz => hT z (by simp [hz]))]
      simp [innerEntry, readCleanLine, cleanLineOpt_self l h1 h2, hinner]
    have hentry : outerEntry (fuel + 1) ((y :: T2) ++ (l :: x :: r)) sents =
        outerLoop (fuel + 1) (some y) (T2 ++ (l :: x :: r)) sents := by
      simp [outerEntry, readCleanLine, cleanLineOpt_self y g1 g2]
    rw [hentry]
    simp only [outerLoop, g3, g4, or_self, if_false, hinner2]

/-- The unparsable-line-at-end-of-stream path never leaves the outer
loop: the `break` in the source only exits the inner loop, `line` still
holds the unparsable line, and every further iteration repeats it. -/
lemma outer_unparsable_diverges (l : String)
    (h1 : l ≠ "") (h3 : l ≠ LINE_END_OF_ARTICLE) (h4 : l ≠ LINE_DOC_TAG_CLOSE)
    (hw : wordLine l = .unparsable) :
    ∀ (fuel : Nat) (sents : List (List Tok)),
      outerLoop fuel (some l) [] sents = .diverge := by
  intro fuel
  have hf : l ≠ FAILING_LINE_3 := by
    intro h
    rw [h] at hw
    exact absurd hw (by decide)
  induction fuel with
  | zero => intro sents; simp [outerLoop, h3, h4]
  | succ n ih =>
    intro sents
    have hinner : innerLoop (some l) [] [] = .ok (some l) [] [] := by
      simp [innerLoop, h1, h3, h4, hw, readCleanLine]
    simp only [outerLoop, h3, h4, or_self, if_false, hinner]
    simp [h1, hf, ih]

/-! ## Claim theorems -/

/-- C1 (code bug): `read_block` on a file truncated right after an
unparsable line inside a document body does not terminate and yield the
document (as the source's own recovery comment intends): the `break`
only leaves the inner loop, so the outer loop re-reads the same line
forever.  At this failing input the parser diverges for every fuel
bound; and when the same unparsable last line sits where a start marker
is expected, the parser raises the opening-tag `ValueError` instead of
yielding no document. -/
theorem c1_truncated_unparsable_diverges (fuel : Nat) :
    readBlockF fuel [exMarker, "xyz"] = .diverge ∧
    readBlockF fuel ["xyz"] = .err .openTag := by
  constructor
  · rw [readBlock_after_marker fuel exMarker "1" "X" "5" ["xyz"]
        (by decide) (by decide) (by decide)]
    have h : outerEntry fuel ["xyz"] [] = .diverge := by
      simp only [outerEntry, readCleanLine,
        (by decide : cleanLineOpt "xyz" = some "xyz")]
      exact outer_unparsable_diverges "xyz" (by decide) (by decide) (by decide)
        (by decide) fuel []
    rw [h]
  · rfl

/-- C2: a well-formed document block (start marker, sentence blocks of
token lines each ended by a blank separator, end-of-article marker,
footer `. . Fp 0`, blank line, closing marker) yields exactly one
Document whose `id`/`title`/`db_index` are the marker's captured fields
and whose sentences are the token lines grouped by the separators, in
order. -/
theorem c2_wellformed_block (m i t d : String) (blocks : List (List String))
    (rest : List String) (fuel : Nat)
    (hm : matchDocStart m = some (i, t, d)) (hm1 : m ≠ "") (hm2 : cleanStr m = m)
    (hb : ∀ b ∈ blocks, b ≠ [] ∧ ∀ l ∈ b, goodTok l) :
    readBlockF (blocks.length + fuel)
        (m :: (sepJoin blocks ++
          (LINE_END_OF_ARTICLE :: ". . Fp 0" :: "\n" :: LINE_DOC_TAG_CLOSE :: rest))) =
      .docs [⟨i, t, d, blocks.map (fun b => b.filterMap tokOf)⟩] rest :=
  readBlock_wellformed m i t d blocks rest fuel hm hm1 hm2 hb

/-- Witness for C2: the specification's end-to-end example yields one
Document with id `"1"`, title `"X"`, db_index `"5"` and one sentence of
the two tokens. -/
theorem c2_wellformed_block_witness :
    readBlockF 1 [exMarker, "Hello hello NN 0", "world world NN 0", "\n",
        LINE_END_OF_ARTICLE, ". . Fp 0", "\n", LINE_DOC_TAG_CLOSE] =
      .docs [⟨"1", "X", "5",
        [[⟨.str "Hello", .str "hello", .str "NN", .str "0"⟩,
          ⟨.str "world", .str "world", .str "NN", .str "0"⟩]]⟩] [] :=
  c2_wellformed_block exMarker "1" "X" "5"
    [["Hello hello NN 0", "world world NN 0"]] [] 0
    (by decide) (by decide) (by decide) (by decide)

/-- C3 counterexample: with a sentence `a`, then a sentence containing
the garbage literal `f`, then a sentence `c`, the Document keeps only
the sentence before the `f` line; the sentence after it is *not* in the
Document (its lines are left unread in the stream), refuting the claim
that sentences after the skip literal appear unchanged. -/
theorem c3_counterexample :
    readBlockF 2 [exMarker, "a a T 0", "\n", "b b T 0", "f", "c c T 0", "\n",
        LINE_END_OF_ARTICLE, ". . Fp 0", "\n", LINE_DOC_TAG_CLOSE] =
      .docs [⟨"1", "X", "5", [[⟨.str "a", .str "a", .str "T", .str "0"⟩]]⟩]
        ["c c T 0", "\n", LINE_END_OF_ARTICLE, ". . Fp 0", "\n", LINE_DOC_TAG_CLOSE] ∧
    readBlockF 2 [exMarker, "a a T 0", "\n", "b b T 0", "f", "c c T 0", "\n",
        LINE_END_OF_ARTICLE, ". . Fp 0", "\n", LINE_DOC_TAG_CLOSE] ≠
      .docs [⟨"1", "X", "5", [[⟨.str "a", .str "a", .str "T", .str "0"⟩],
                              [⟨.str "c", .str "c", .str "T", .str "0"⟩]]⟩] [] := by
  constructor
  · decide
  · decide

/-- C3 (amended): the sentence containing the skip literal `f` is
absent and every sentence before it is present unchanged; but the
document body ends at the `f` line — the Document is returned at once
and the remaining lines are left unconsumed. -/
theorem c3_skip_literal (m i t d : String) (blocks : List (List String))
    (T R : List String) (fuel : Nat)
    (hm : matchDocStart m = some (i, t, d)) (hm1 : m ≠ "") (hm2 : cleanStr m = m)
    (hb : ∀ b ∈ blocks, b ≠ [] ∧ ∀ l ∈ b, goodTok l)
    (hT : ∀ l ∈ T, goodTok l) :
    readBlockF (blocks.length + fuel + 1)
        (m :: (sepJoin blocks ++ (T ++ (FAILING_LINE_3 :: R)))) =
      .docs [⟨i, t, d, blocks.map (fun b => b.filterMap tokOf)⟩] R := by
  rw [readBlock_after_marker _ m i t d _ hm hm1 hm2,
      (by omega : blocks.length + fuel + 1 = blocks.length + (fuel + 1)),
      outer_run blocks _ [] (fuel + 1) hb]
  rw [show ([] ++ blocks.map fun b => b.filterMap tokOf) =
        blocks.map (fun b => b.filterMap tokOf) from by simp,
      outer_skip_exit T R _ fuel hT]
  simp [(by decide : ¬ (some FAILING_LINE_3 = some LINE_END_OF_ARTICLE))]

/-- Witness for C3 (amended). -/
theorem c3_skip_literal_witness :
    readBlockF 2 [exMarker, "x x T 0", "\n", "y y T 0", "f", "zzz"] =
      .docs [⟨"1", "X", "5", [[⟨.str "x", .str "x", .str "T", .str "0"⟩]]⟩]
        ["zzz"] :=
  c3_skip_literal exMarker "1" "X" "5" [["x x T 0"]] ["y y T 0"] ["zzz"] 0
    (by decide) (by decide) (by decide) (by decide) (by decide)

/-- C4 counterexample: end of stream in the middle of the first
sentence (one token line, then truncation).  The in-progress sentence
is *kept* in the yielded Document, refuting the claim that it is
dropped. -/
theorem c4_counterexample :
    readBlockF 1 [exMarker, "Hello hello NN 0"] =
      .docs [⟨"1", "X", "5",
        [[⟨.str "Hello", .str "hello", .str "NN", .str "0"⟩]]⟩] [] ∧
    readBlockF 1 [exMarker, "Hello hello NN 0"] ≠
      .docs [⟨"1", "X", "5", []⟩] [] := by
  constructor
  · decide
  · decide

/-- C4 (amended): when end of stream occurs mid-sentence (after at
least one token line of that sentence), the prior complete sentences
*and* the in-progress partial sentence are all appended, and the
Document is yielded without error. -/
theorem c4_truncated_mid_sentence (m i t d : String) (blocks : List (List String))
    (l : String) (T2 : List String) (fuel : Nat)
    (hm : matchDocStart m = some (i, t, d)) (hm1 : m ≠ "") (hm2 : cleanStr m = m)
    (hb : ∀ b ∈ blocks, b ≠ [] ∧ ∀ x ∈ b, goodTok x)
    (hT : ∀ x ∈ l :: T2, goodTok x) :
    readBlockF (blocks.length + fuel + 1)
        (m :: (sepJoin blocks ++ (l :: T2))) =
      .docs [⟨i, t, d, blocks.map (fun b => b.filterMap tokOf) ++
                         [(l :: T2).filterMap tokOf]⟩] [] := by
  rw [readBlock_after_marker _ m i t d _ hm hm1 hm2,
      (by omega : blocks.length + fuel + 1 = blocks.length + (fuel + 1)),
      outer_run blocks _ [] (fuel + 1) hb,
      outer_none_exit l T2 _ fuel hT]
  simp

/-- Witness for C4 (amended): one complete sentence, then a partial
sentence of one token line cut off by end of stream; both are in the
Document. -/
theorem c4_truncated_mid_sentence_witness :
    readBlockF 2 [exMarker, "a a T 0", "\n", "b b T 0"] =
      .docs [⟨"1", "X", "5", [[⟨.str "a", .str "a", .str "T", .str "0"⟩],
                              [⟨.str "b", .str "b", .str "T", .str "0"⟩]]⟩] [] :=
  c4_truncated_mid_sentence exMarker "1" "X" "5" [["a a T 0"]] "b b T 0" [] 0
    (by decide) (by decide) (by decide) (by decide) (by decide)

/-- C5 counterexample: a blank line directly after the start marker
makes the inner loop exit at once and the outer loop append the still
empty sentence, so the yielded Document contains an empty sentence,
refuting the claim that completed Documents never do. -/
theorem c5_counterexample :
    readBlockF 1 [exMarker, "\n", LINE_END_OF_ARTICLE, ". . Fp 0", "\n",
        LINE_DOC_TAG_CLOSE] =
      .docs [⟨"1", "X", "5", [[]]⟩] [] ∧
    ([] : List Tok) ∈ [([] : List Tok)] := by
  constructor
  · decide
  · decide

/-- C5 (amended): Documents can contain empty sentences (one per blank
line in sentence-start position); but for inputs whose blank lines
occur only as single separators after nonempty sentence blocks, every
sentence of the yielded Document is nonempty. -/
theorem c5_no_empty_sentence (m i t d : String) (blocks : List (List String))
    (rest : List String) (fuel : Nat)
    (hm : matchDocStart m = some (i, t, d)) (hm1 : m ≠ "") (hm2 : cleanStr m = m)
    (hb : ∀ b ∈ blocks, b ≠ [] ∧ ∀ l ∈ b, goodTok l) :
    readBlockF (blocks.length + fuel)
        (m :: (sepJoin blocks ++
          (LINE_END_OF_ARTICLE :: ". . Fp 0" :: "\n" :: LINE_DOC_TAG_CLOSE :: rest))) =
      .docs [⟨i, t, d, blocks.map (fun b => b.filterMap tokOf)⟩] rest ∧
    ∀ sent ∈ blocks.map (fun b => b.filterMap tokOf), sent ≠ [] := by
  refine ⟨readBlock_wellformed m i t d blocks rest fuel hm hm1 hm2 hb, ?_⟩
  intro sent hsent
  obtain ⟨b, hbmem, rfl⟩ := List.mem_map.mp hsent
  obtain ⟨hbne, hbtok⟩ := hb b hbmem
  cases b with
  | nil => exact absurd rfl hbne
  | cons l b2 =>
    obtain ⟨_, _, _, _, t2, _, ht2⟩ := goodTok_spec (hbtok l (by simp))
    simp [List.filterMap_cons, ht2]

/-- Witness for C5 (amended). -/
theorem c5_no_empty_sentence_witness :
    readBlockF 2 [exMarker, "a a T 0", "\n", "b b T 0", "\n",
        LINE_END_OF_ARTICLE, ". . Fp 0", "\n", LINE_DOC_TAG_CLOSE] =
      .docs [⟨"1", "X", "5", [[⟨.str "a", .str "a", .str "T", .str "0"⟩],
                              [⟨.str "b", .str "b", .str "T", .str "0"⟩]]⟩] [] ∧
    ∀ sent ∈ [[(⟨.str "a", .str "a", .str "T", .str "0"⟩ : Tok)],
              [(⟨.str "b", .str "b", .str "T", .str "0"⟩ : Tok)]], sent ≠ [] :=
  c5_no_empty_sentence exMarker "1" "X" "5" [["a a T 0"], ["b b T 0"]] [] 0
    (by decide) (by decide) (by decide) (by decide)

/-- C6 counterexample: the line `a b c 1x` has a fourth field that only
*starts* with a digit, yet (because `re.match` is a prefix match) it is
parsed as the token `("a","b","c","1")` instead of raising
`UnparsableLineError`, even though further lines follow. -/
theorem c6_counterexample :
    readBlockF 2 [exMarker, "a b c 1x", "\n", LINE_END_OF_ARTICLE, ". . Fp 0",
        "\n", LINE_DOC_TAG_CLOSE] =
      .docs [⟨"1", "X", "5", [[⟨.str "a", .str "b", .str "c", .str "1"⟩]]⟩] [] ∧
    readBlockF 2 [exMarker, "a b c 1x", "\n", LINE_END_OF_ARTICLE, ". . Fp 0",
        "\n", LINE_DOC_TAG_CLOSE] ≠
      .err (.unparsableLine "a b c 1x") := by
  constructor
  · decide
  · decide

/-- C6 (amended): the token grammars are prefix matches, so a line is
unparsable only when *no prefix* matches any of the three patterns (and
it is not `Fz 0`, a corruption-table literal, or the skip literal); for
every such line in sentence position that is followed by any further
line, the parser fails with the unparsable-line `ValueError`. -/
theorem c6_unparsable_line (m i t d : String) (blocks : List (List String))
    (T : List String) (l x : String) (r : List String) (fuel : Nat)
    (hm : matchDocStart m = some (i, t, d)) (hm1 : m ≠ "") (hm2 : cleanStr m = m)
    (hb : ∀ b ∈ blocks, b ≠ [] ∧ ∀ y ∈ b, goodTok y)
    (hT : ∀ y ∈ T, goodTok y)
    (h1 : l ≠ "") (h2 : cleanStr l = l)
    (h3 : l ≠ LINE_END_OF_ARTICLE) (h4 : l ≠ LINE_DOC_TAG_CLOSE)
    (hw : wordLine l = .unparsable) (hx : x ≠ "") :
    readBlockF (blocks.length + fuel + 1)
        (m :: (sepJoin blocks ++ (T ++ (l :: x :: r)))) =
      .err (.unparsableLine l) := by
  rw [readBlock_after_marker _ m i t d _ hm hm1 hm2,
      (by omega : blocks.length + fuel + 1 = blocks.length + (fuel + 1)),
      outer_run blocks _ [] (fuel + 1) hb,
      outer_unparsable_err T l x r _ fuel hT h1 h2 h3 h4 hw hx]

/-- Witness for C6 (amended): the line `@@@` matches no pattern prefix
and is followed by a further line, so the invocation raises. -/
theorem c6_unparsable_line_witness :
    readBlockF 2 [exMarker, "a a T 0", "\n", "b b T 0", "@@@", "next next T 0"] =
      .err (.unparsableLine "@@@") :=
  c6_unparsable_line exMarker "1" "X" "5" [["a a T 0"]] ["b b T 0"]
    "@@@" "next next T 0" [] 0
    (by decide) (by decide) (by decide) (by decide) (by decide) (by decide)
    (by decide) (by decide) (by decide) (by decide) (by decide)

/-- C7 counterexample: the `Fz 0` line yields a token whose sense field
is the *integer* `0` (the source writes `sense = 0`), not the text
`"0"` the claim states. -/
theorem c7_counterexample :
    readBlockF 1 [exMarker, "Fz 0", "\n", LINE_END_OF_ARTICLE, ". . Fp 0", "\n",
        LINE_DOC_TAG_CLOSE] =
      .docs [⟨"1", "X", "5", [[⟨.str "", .str "", .str "Fz", .int 0⟩]]⟩] [] ∧
    (⟨.str "", .str "", .str "Fz", .int 0⟩ : Tok) ≠
      ⟨.str "", .str "", .str "Fz", .str "0"⟩ := by
  constructor
  · decide
  · decide

/-- C7 (amended): an occurrence of the exact line `Fz 0` inside a
sentence appends the token `(word="", lemma="", tag="Fz", sense=0)`
whose sense is the integer zero; the other three fields are text. -/
theorem c7_fz_token (m i t d : String) (blocks : List (List String))
    (pre post : List String) (rest : List String) (fuel : Nat)
    (hm : matchDocStart m = some (i, t, d)) (hm1 : m ≠ "") (hm2 : cleanStr m = m)
    (hb : ∀ b ∈ blocks, b ≠ [] ∧ ∀ l ∈ b, goodTok l)
    (hpre : ∀ l ∈ pre, goodTok l) (hpost : ∀ l ∈ post, goodTok l) :
    readBlockF (blocks.length + 1 + fuel)
        (m :: (sepJoin (blocks ++ [pre ++ "Fz 0" :: post]) ++
          (LINE_END_OF_ARTICLE :: ". . Fp 0" :: "\n" :: LINE_DOC_TAG_CLOSE :: rest))) =
      .docs [⟨i, t, d,
        blocks.map (fun b => b.filterMap tokOf) ++
          [pre.filterMap tokOf ++
            (⟨.str "", .str "", .str "Fz", .int 0⟩ :: post.filterMap tokOf)]⟩] rest := by
  have hb2 : ∀ b ∈ blocks ++ [pre ++ "Fz 0" :: post],
      b ≠ [] ∧ ∀ l ∈ b, goodTok l := by
    intro b hbm
    rcases List.mem_append.mp hbm with h | h
    · exact hb b h
    · rw [List.mem_singleton] at h
      subst h
      constructor
      · intro h
        have := congrArg List.length h
        simp at this
      · intro x hx
        rcases List.mem_append.mp hx with h | h
        · exact hpre x h
        · rcases List.mem_cons.mp h with h | h
          · subst h; decide
          · exact hpost x h
  have h := readBlock_wellformed m i t d (blocks ++ [pre ++ "Fz 0" :: post])
    rest fuel hm hm1 hm2 hb2
  rw [(by simp : (blocks ++ [pre ++ "Fz 0" :: post]).length + fuel =
        blocks.length + 1 + fuel)] at h
  simpa [List.map_append, List.filterMap_append, List.filterMap_cons,
    (by decide : tokOf "Fz 0" = some ⟨.str "", .str "", .str "Fz", .int 0⟩)] using h

/-- Witness for C7 (amended). -/
theorem c7_fz_token_witness :
    readBlockF 2 [exMarker, "b b T 0", "\n", "a a T 0", "Fz 0", "\n",
        LINE_END_OF_ARTICLE, ". . Fp 0", "\n", LINE_DOC_TAG_CLOSE] =
      .docs [⟨"1", "X", "5", [[⟨.str "b", .str "b", .str "T", .str "0"⟩],
                              [⟨.str "a", .str "a", .str "T", .str "0"⟩,
                               ⟨.str "", .str "", .str "Fz", .int 0⟩]]⟩] [] :=
  c7_fz_token exMarker "1" "X" "5" [["b b T 0"]] ["a a T 0"] [] [] 0
    (by decide) (by decide) (by decide) (by decide) (by decide) (by decide)

/-- C8: when the first line of an invocation is blank (the duplicate
closing-marker artifact), the parser requires the next line to be the
closing marker and then returns zero documents without error; any other
second line (including end of stream) is the fatal closing-tag
assertion failure. -/
theorem c8_duplicate_close (fuel : Nat) (x : String) (rest : List String) :
    readBlockF fuel ("\n" :: LINE_DOC_TAG_CLOSE :: rest) = .docs [] rest ∧
    (cleanLineOpt x ≠ some LINE_DOC_TAG_CLOSE →
      readBlockF fuel ("\n" :: x :: rest) = .err .assertCloseTag) := by
  constructor
  · simp [readBlockF, readCleanLine, (by decide : cleanLineOpt "\n" = some ""),
      (by decide : matchDocStart "" = Option.none),
      (by decide : cleanLineOpt LINE_DOC_TAG_CLOSE = some LINE_DOC_TAG_CLOSE)]
  · intro h
    simp [readBlockF, readCleanLine, (by decide : cleanLineOpt "\n" = some ""),
      (by decide : matchDocStart "" = Option.none), h]

/-- Witness for C8. -/
theorem c8_duplicate_close_witness :
    readBlockF 0 ["\n", LINE_DOC_TAG_CLOSE] = .docs [] [] ∧
    readBlockF 0 ["\n", "zzz"] = .err .assertCloseTag :=
  ⟨(c8_duplicate_close 0 "zzz" []).1, (c8_duplicate_close 0 "zzz" []).2 (by decide)⟩

/-- C9 counterexample: the raw line `" a\n"` is normalized to `"a"` —
`read_clean_line` uses `str.strip()`, which removes the *leading* space
as well — refuting the claim that only the trailing newline is removed
and leading whitespace is preserved. -/
theorem c9_counterexample :
    readCleanLine [" a\n"] = (some "a", []) ∧
    readCleanLine [" a\n"] ≠ (some " a", []) := by
  constructor
  · decide
  · decide

/-- C9 (amended): for every nonempty raw line, the normalized Line is
the raw line with *all* leading and trailing Python whitespace
(including the trailing newline and any boundary non-breaking spaces)
removed and every remaining non-breaking space replaced by an ordinary
space; reading at end of stream returns the end-of-stream signal
instead. -/
theorem c9_clean_line (raw : String) (rest : List String) (h : raw ≠ "") :
    readCleanLine (raw :: rest) = (some (specNormalizeLine raw), rest) := by
  simp [readCleanLine, cleanLineOpt, h, cleanStr_eq_spec]

/-- Witness for C9 (amended). -/
theorem c9_clean_line_witness :
    readCleanLine [" a\xa0b\n"] = (some "a b", []) :=
  c9_clean_line " a\xa0b\n" [] (by decide)

/-- C10: invoking the block parser on an already exhausted stream hits
`PATTERN_DOC_START.match(None)` — modelled by the distinguished
`noneMatch` error, the `TypeError` escape hatch that is neither a clean
zero-document return nor one of the parser's own structural or parse
errors. -/
theorem c10_exhausted_stream (fuel : Nat) :
    readBlockF fuel [] = .err .noneMatch ∧
    (∀ ds rest, BlockRes.err .noneMatch ≠ .docs ds rest) ∧
    BlockRes.err .noneMatch ≠ .err .openTag ∧
    BlockRes.err .noneMatch ≠ .err .assertCloseTag := by
  refine ⟨rfl, ?_, by decide, by decide⟩
  intro ds rest
  simp

end Wikicorpus
